import Mathlib

/-!
Verification development for the CosmoServer rule-code compilation and
rule-lifecycle core.

The Python sources embedded here (shallowly) are:
  * `src/exec_utils.py`  — static validation, safe namespace, snippet
    evaluation contract, signature validation, rule-kind detection;
  * `src/routes/rpc.py`  — install / uninstall / list-installed routes;
  * `src/startup.py`     — auto-install of persisted rules at process start.

Modelling conventions:
  * Python source strings appear as parsed syntax trees (`PyCode`): the
    parser itself is outside the embedding, and `PyCode.bad` stands for a
    string that fails to parse (`SyntaxError`).
  * `exec` of a validated snippet is an abstract parameter of type
    `ExecFn`; theorems quantifying over every `ExecFn` therefore hold no
    matter what the evaluator does, which is the embedding's rendering of
    "the source is never executed on this path".  A small concrete
    evaluator (`simple_exec`) instantiates it in concrete theorems: it
    reproduces CPython's documented behaviour of inserting the
    non-callable `__builtins__` binding into a fresh globals dict before
    the code runs, and then applies the top-level statements in order.
  * All Python errors raised by the pipeline are `ValueError`s carrying a
    message; they are embedded as the constructors of `Err`, one per
    distinguishable message family.
  * The external scheduling engine (`cosmo.rules.manager.RuleManager`) is
    not part of this repository; its contract is modelled from the spec
    (section 6) as an association list from task id to a suspended flag.
-/

/-- Resolved type hint of one parameter, as produced by
`typing.get_type_hints`: either an actual class (identified by its name)
or something that is not a class (`inspect.isclass` false). -/
inductive TypeHint where
  | cls (tname : String)
  | notClass
deriving DecidableEq

/-- Parameter kinds of `inspect.Parameter`. -/
inductive ParamKind where
  | positionalOnly
  | positionalOrKeyword
  | varPositional
  | keywordOnly
  | varKeyword
deriving DecidableEq

/-- One parameter of an extracted callable, as seen through
`inspect.signature` and `typing.get_type_hints`: name, kind, whether a
default is present, whether a syntactic annotation is present, and the
resolved hint (if any). -/
structure Param where
  pname : String
  kind : ParamKind
  hasDefault : Bool
  hasAnn : Bool
  hint : Option TypeHint
deriving DecidableEq

/-- Error kinds of the compilation and lifecycle pipeline.  Every one is a
`ValueError` in the Python source; the constructors follow the spec's
error taxonomy (section 7) and the distinct message families of
`src/exec_utils.py`, `src/startup.py`. -/
inductive Err where
  | invalidSyntax
  | importNotAllowed
  | executionFailed
  | nonFunctionTopLevel (offender : String)
  | missingEntryPoint (fname : String)
  | entryPointNotCallable (fname : String)
  | actionMustBeAsync
  | keywordParameterNotAllowed (p : String)
  | defaultNotAllowed (p : String)
  | missingTypeHint (p : String)
  | typeHintNotAClass (p : String)
  | duplicateUtilityType (t : String)
  | unregisteredUtility (t : String)
  | unrecognizedReturnType (found : Option String)
  | noAssociatedAction
  | engineSubmissionFailed
deriving DecidableEq

/-- Runtime values bound in an execution namespace.  Functions carry their
async flag and signature; classes are values too (and, as in Python,
classes are callable). -/
inductive PyVal where
  | func (isAsync : Bool) (ps : List Param)
  | cls (cname : String)
  | intVal (n : Int)
  | strVal (s : String)
  | dictVal
  | noneVal
deriving DecidableEq

/-- Embedding of Python's `callable`: functions and classes are callable,
plain data values — including the builtins dict that `exec` inserts under
`__builtins__` — are not. -/
def callable : PyVal → Bool
  | .func _ _ => true
  | .cls _ => true
  | .intVal _ => false
  | .strVal _ => false
  | .dictVal => false
  | .noneVal => false

/-- Execution namespaces (`dict[str, object]`), as association lists; the
first binding of a key is its value. -/
abbrev NS := List (String × PyVal)

mutual
/-- Python statements, as far as the pipeline inspects them (`ast`).
`funcDef` is `ast.FunctionDef` with the parameter list of the function it
would create, its unparsed return annotation text (`ast.unparse` of
`node.returns`, absent when there is no annotation) and its body;
`asyncFuncDef` is the distinct node class `ast.AsyncFunctionDef`.
Compound statements carry their nested statement blocks so that imports
can occur at any nesting depth. -/
inductive Stmt where
  | importPlain
  | importFromStmt
  | funcDef (fname : String) (ps : List Param) (ret : Option String) (body : StmtSeq)
  | asyncFuncDef (fname : String) (ps : List Param) (ret : Option String) (body : StmtSeq)
  | classDef (cname : String) (body : StmtSeq)
  | ifStmt (body orelse : StmtSeq)
  | whileStmt (body orelse : StmtSeq)
  | assign (target : String)
  | delStmt (target : String)
  | exprStmt
  | passStmt
/-- A block of statements. -/
inductive StmtSeq where
  | nil
  | cons (s : Stmt) (rest : StmtSeq)
end

/-- Conversion from Lean lists, for readable concrete modules. -/
def seqOf : List Stmt → StmtSeq
  | [] => .nil
  | s :: rest => .cons s (seqOf rest)

/-- Conversion of a block back to a Lean list (the node's children). -/
def StmtSeq.toList : StmtSeq → List Stmt
  | .nil => []
  | .cons s rest => s :: StmtSeq.toList rest

mutual
/-- Whether a statement is, or contains anywhere beneath it, an
`ast.Import` or `ast.ImportFrom` node — the condition that
`_validate_no_imports` detects by walking the whole tree. -/
def Stmt.hasImport : Stmt → Bool
  | .importPlain => true
  | .importFromStmt => true
  | .funcDef _ _ _ b => b.hasImport
  | .asyncFuncDef _ _ _ b => b.hasImport
  | .classDef _ b => b.hasImport
  | .ifStmt b e => b.hasImport || e.hasImport
  | .whileStmt b e => b.hasImport || e.hasImport
  | .assign _ => false
  | .delStmt _ => false
  | .exprStmt => false
  | .passStmt => false
/-- Block version of `Stmt.hasImport`. -/
def StmtSeq.hasImport : StmtSeq → Bool
  | .nil => false
  | .cons s rest => s.hasImport || rest.hasImport
end

/-- A Python source string as the pipeline sees it: either unparseable
(`SyntaxError`) or a parsed module (its top-level statement block). -/
inductive PyCode where
  | bad
  | mod (stmts : StmtSeq)

mutual
/-- Node count of a statement subtree (used as breadth-first-search fuel:
a walk visits each node at most once). -/
def Stmt.size : Stmt → Nat
  | .importPlain => 1
  | .importFromStmt => 1
  | .funcDef _ _ _ b => 1 + b.size
  | .asyncFuncDef _ _ _ b => 1 + b.size
  | .classDef _ b => 1 + b.size
  | .ifStmt b e => 1 + b.size + e.size
  | .whileStmt b e => 1 + b.size + e.size
  | .assign _ => 1
  | .delStmt _ => 1
  | .exprStmt => 1
  | .passStmt => 1
/-- Node count of a block. -/
def StmtSeq.size : StmtSeq → Nat
  | .nil => 0
  | .cons s rest => s.size + rest.size
end

/-- Direct children of a statement node, in source order (as `ast.walk`
enqueues them). -/
def Stmt.children : Stmt → List Stmt
  | .funcDef _ _ _ b => b.toList
  | .asyncFuncDef _ _ _ b => b.toList
  | .classDef _ b => b.toList
  | .ifStmt b e => b.toList ++ e.toList
  | .whileStmt b e => b.toList ++ e.toList
  | _ => []

/-- Fuelled breadth-first search over the statement tree for the first
`ast.FunctionDef` node (async defs are a different node class and do not
match) named `fname` that carries a return annotation, mirroring the walk
of the extraction helper at `src/exec_utils.py:147`.  The fuel is the total node count,
which bounds the number of queue pops a full walk performs. -/
def walk_find_ret (fname : String) : Nat → List Stmt → Option String
  | 0, _ => none
  | _ + 1, [] => none
  | fuel + 1, s :: rest =>
    match s with
    | .funcDef f _ (some ann) _ =>
      if f = fname then some ann
      else walk_find_ret fname fuel (rest ++ s.children)
    | _ => walk_find_ret fname fuel (rest ++ s.children)

/-- Total node count of a list of statements. -/
def stmts_size (l : List Stmt) : Nat := (l.map Stmt.size).sum

/-- Embedding of the return-annotation extraction helper
(`src/exec_utils.py:147`): parse (already done in
`PyCode`; a `SyntaxError` yields `none`), then walk the tree breadth-first
and return the unparsed annotation text of the first function definition
with the given name that has one. -/
def extract_return_ann (code : PyCode) (fname : String) : Option String :=
  match code with
  | .bad => none
  | .mod m => walk_find_ret fname (stmts_size m.toList + 1) m.toList

/-- Character-list version of `str.startswith` for substring search. -/
def leads_with : List Char → List Char → Bool
  | [], _ => true
  | _ :: _, [] => false
  | a :: as, b :: bs => (a = b) && leads_with as bs

/-- Substring containment on character lists (Python's `in` operator on
strings). -/
def has_sub (pat : List Char) : List Char → Bool
  | [] => pat.isEmpty
  | c :: rest => leads_with pat (c :: rest) || has_sub pat rest

/-- Embedding of `return_type.replace(" ", "").lower()`: drop spaces, then
lowercase (the annotation texts involved are ASCII, where `Char.toLower`
and `str.lower` agree). -/
def normalize_ret (s : String) : List Char :=
  (s.data.filter (fun c => !(c = Char.ofNat 32))).map Char.toLower

/-- Rule kinds returned by `detect_rule_type`. -/
inductive RuleKind where
  | trigger
  | timer
deriving DecidableEq

/-- Classification of an extracted return-annotation text, mirroring the
body of `detect_rule_type` after extraction: normalize, then test for the
substring `abstractcondition`; failing that, for `datetime|none`, or for
both `datetime` and `none`, or for `optional[datetime]` (the source
re-applies the space strip there; it is the identity on an already
normalized text and is kept for fidelity). -/
def detect_from_ann (return_type : String) : Except Err RuleKind :=
  let normalized := normalize_ret return_type
  if has_sub "abstractcondition".data normalized then .ok .trigger
  else if has_sub "datetime|none".data normalized
      || (has_sub "datetime".data normalized && has_sub "none".data normalized)
      || has_sub "optional[datetime]".data (normalized.filter (fun c => !(c = Char.ofNat 32))) then
    .ok .timer
  else .error (.unrecognizedReturnType (some return_type))

/-- Embedding of `detect_rule_type` (`src/exec_utils.py:321`): extract the
`trigger` function's return annotation text; a missing annotation and an
unmatched annotation both raise `ValueError` (the spec's
`UnrecognizedReturnType`). -/
def detect_rule_type (trigger_code : PyCode) : Except Err RuleKind :=
  match extract_return_ann trigger_code "trigger" with
  | none => .error (.unrecognizedReturnType none)
  | some return_type => detect_from_ann return_type

/-- Embedding of `_get_safe_namespace`: the fixed allow-list
(`datetime`, `timedelta`, `AbstractCondition`, `CosmoUtils`) followed by
one entry per registered plugin utility type, keyed by the type's name.
The registry snapshot is passed explicitly as the list of registered type
names. -/
def get_safe_namespace (registry : List String) : NS :=
  [("datetime", .cls "datetime"),
   ("timedelta", .cls "timedelta"),
   ("AbstractCondition", .cls "AbstractCondition"),
   ("CosmoUtils", .cls "CosmoUtils")]
  ++ registry.map (fun t => (t, PyVal.cls t))

/-- Embedding of `_validate_no_imports`: `SyntaxError` → `InvalidSyntax`;
any import node anywhere in the tree → `ImportNotAllowed`; otherwise the
parsed module is accepted. -/
def validate_no_imports (code : PyCode) : Except Err StmtSeq :=
  match code with
  | .bad => .error .invalidSyntax
  | .mod m => if m.hasImport then .error .importNotAllowed else .ok m

/-- Names present in a namespace, in order (`dict` keys). -/
def ns_keys (ns : NS) : List String := ns.map Prod.fst

/-- Names newly introduced by execution:
`set(namespace_after.keys()) - set(namespace_before.keys())`. -/
def added_names (before after : NS) : List String :=
  (ns_keys after).filter (fun n => !(ns_keys before).contains n)

/-- Embedding of `_validate_only_functions`: every newly-introduced name
must be bound to a callable value; the first non-callable one (set
iteration order is immaterial to whether the check fails) raises the
`NonFunctionTopLevel` error naming it. -/
def validate_only_functions (namespace_before namespace_after : NS) : Except Err Unit :=
  match (added_names namespace_before namespace_after).find?
      (fun n => match namespace_after.lookup n with
        | some v => !callable v
        | none => false) with
  | some n => .error (.nonFunctionTopLevel n)
  | none => .ok ()

/-- Loop of `_validate_function_parameters` over the signature's
parameters in declaration order, threading the `seen_types` set.  Checks
per parameter, in source order: kind, default, syntactic annotation,
resolved hint present, hint is a class, hint not already seen, hint is
`CosmoUtils` or registered. -/
def validate_params_loop (registry : List String) (seen : List String) :
    List Param → Except Err Unit
  | [] => .ok ()
  | p :: rest =>
    if p.kind = ParamKind.keywordOnly ∨ p.kind = ParamKind.varKeyword then
      .error (.keywordParameterNotAllowed p.pname)
    else if p.hasDefault then .error (.defaultNotAllowed p.pname)
    else if p.hasAnn = false then .error (.missingTypeHint p.pname)
    else
      match p.hint with
      | none => .error (.missingTypeHint p.pname)
      | some TypeHint.notClass => .error (.typeHintNotAClass p.pname)
      | some (TypeHint.cls t) =>
        if t ∈ seen then .error (.duplicateUtilityType t)
        else if t = "CosmoUtils" then validate_params_loop registry (t :: seen) rest
        else if t ∈ registry then validate_params_loop registry (t :: seen) rest
        else .error (.unregisteredUtility t)

/-- Embedding of `_validate_function_parameters` (the function name only
feeds error messages and is omitted). -/
def validate_function_parameters (registry : List String) (ps : List Param) : Except Err Unit :=
  validate_params_loop registry [] ps

/-- Signature of an abstract snippet evaluator (`exec` against a
namespace): it receives the parsed module and the pre-populated namespace
and returns the mutated namespace, or an error when evaluation raises. -/
abbrev ExecFn := StmtSeq → NS → Except Unit NS

/-- Parameter list visible through `inspect.signature` of an extracted
callable (for a class, the constructor signature; the modelled classes
take no parameters). -/
def params_of : PyVal → List Param
  | .func _ ps => ps
  | _ => []

/-- Embedding of `compile_action_function` (`src/exec_utils.py:173`):
validate no imports, build the safe namespace, execute, check only
callables were added, extract `action`, require it callable and async,
validate its parameters, and return it. -/
def compile_action_function (execFn : ExecFn) (registry : List String)
    (code : PyCode) : Except Err PyVal :=
  match validate_no_imports code with
  | .error e => .error e
  | .ok m =>
    let ns0 := get_safe_namespace registry
    match execFn m ns0 with
    | .error _ => .error .executionFailed
    | .ok ns1 =>
      match validate_only_functions ns0 ns1 with
      | .error e => .error e
      | .ok _ =>
        match ns1.lookup "action" with
        | none => .error (.missingEntryPoint "action")
        | some v =>
          if callable v = false then .error (.entryPointNotCallable "action")
          else
            match v with
            | .func true ps =>
              (match validate_function_parameters registry ps with
               | .error e => .error e
               | .ok _ => .ok (PyVal.func true ps))
            | _ => .error .actionMustBeAsync

/-- Embedding of `compile_trigger_function` (`src/exec_utils.py:219`):
validate no imports, execute, check only callables were added, extract
`trigger`, require it callable, require the return annotation text to be
exactly `AbstractCondition`, validate parameters, and return it. -/
def compile_trigger_function (execFn : ExecFn) (registry : List String)
    (code : PyCode) : Except Err PyVal :=
  match validate_no_imports code with
  | .error e => .error e
  | .ok m =>
    let ns0 := get_safe_namespace registry
    match execFn m ns0 with
    | .error _ => .error .executionFailed
    | .ok ns1 =>
      match validate_only_functions ns0 ns1 with
      | .error e => .error e
      | .ok _ =>
        match ns1.lookup "trigger" with
        | none => .error (.missingEntryPoint "trigger")
        | some v =>
          if callable v = false then .error (.entryPointNotCallable "trigger")
          else
            let return_type := extract_return_ann code "trigger"
            if return_type ≠ some "AbstractCondition" then
              .error (.unrecognizedReturnType return_type)
            else
              match validate_function_parameters registry (params_of v) with
              | .error e => .error e
              | .ok _ => .ok v

/-- Embedding of `compile_time_provider` (`src/exec_utils.py:270`): as for
triggers, but the return annotation text must be one of the three listed
spellings `datetime | None`, `datetime|None`, `Optional[datetime]`. -/
def compile_time_provider (execFn : ExecFn) (registry : List String)
    (code : PyCode) : Except Err PyVal :=
  match validate_no_imports code with
  | .error e => .error e
  | .ok m =>
    let ns0 := get_safe_namespace registry
    match execFn m ns0 with
    | .error _ => .error .executionFailed
    | .ok ns1 =>
      match validate_only_functions ns0 ns1 with
      | .error e => .error e
      | .ok _ =>
        match ns1.lookup "trigger" with
        | none => .error (.missingEntryPoint "trigger")
        | some v =>
          if callable v = false then .error (.entryPointNotCallable "trigger")
          else
            let return_type := extract_return_ann code "trigger"
            if return_type = some "datetime | None"
                ∨ return_type = some "datetime|None"
                ∨ return_type = some "Optional[datetime]" then
              match validate_function_parameters registry (params_of v) with
              | .error e => .error e
              | .ok _ => .ok v
            else .error (.unrecognizedReturnType return_type)

/-- Modelled from the spec: the external scheduling engine's live task
set (`cosmo.rules.manager.RuleManager`, not part of this repository).
Spec section 6 gives its contract: tasks keyed by caller-supplied task id,
each with a suspended flag (`set-suspended`). -/
abbrev EngineState := List (String × Bool)

/-- Modelled from the spec: `list-task-ids()` — the ids of the live
tasks (`RuleManager.get_all_rules`). -/
def installed_ids (st : EngineState) : List String := st.map Prod.fst

/-- Modelled from the spec: `submit(rule object, task-id)` —
installation of a compiled rule under a task id
(`RuleManager.install_trigger_rule` / `install_timed_rule`); a duplicate
id is rejected, otherwise a new non-suspended task starts. -/
def submit_rule (st : EngineState) (task_id : String) : Except Err EngineState :=
  if (installed_ids st).contains task_id then .error .engineSubmissionFailed
  else .ok (st ++ [(task_id, false)])

/-- Modelled from the spec: `set-suspended(task-id, true)`
(`RuleManager.suspend_rule`). -/
def engine_suspend (st : EngineState) (task_id : String) : EngineState :=
  st.map (fun p => if p.1 = task_id then (p.1, true) else p)

/-- Modelled from the spec: `cancel(task-id) -> bool`
(`RuleManager.uninstall_rule`): report whether a task with that id was
live, and remove it if so — removal of an absent id leaves the engine
unchanged. -/
def cancel_task (st : EngineState) (task_id : String) : Bool × EngineState :=
  ((installed_ids st).contains task_id, st.filter (fun p => !(p.1 = task_id)))

/-- Suspension flag of a live task, if the task exists. -/
def task_suspended (st : EngineState) (task_id : String) : Option Bool :=
  st.lookup task_id

/-- Persisted action record (`database.models.Action`): id, name,
description, and the action source. -/
structure DbAction where
  id : String
  aname : String
  description : String
  action_code : PyCode

/-- Persisted rule record (`database.models.Rule`): id, name,
description, the trigger/timer source, the suspension flag, and the
associated action record (the relationship may be unset). -/
structure DbRule where
  id : String
  rname : String
  description : String
  trigger : PyCode
  is_suspended : Bool
  action : Option DbAction

/-- Response schema `InstalledRuleAction` (`models/rules.py`). -/
structure InstalledRuleAction where
  id : String
  aname : String
  description : String
  action_code : PyCode

/-- One entry of the installed-rules listing: either an `InstalledRule`
(full rule and action detail) or an `OrphanedRule` (task id only), the
two response schemas of `models/rules.py`. -/
inductive RuleView where
  | installed (rule_id rname description : String) (trigger : PyCode)
      (is_suspended : Bool) (action : Option InstalledRuleAction)
  | orphaned (rule_id : String)

/-- Status filter values accepted by the installed-rules route (the 400
rejection of any other string is handled by typing the argument). -/
inductive StatusFilter where
  | suspended
  | running
  | orphanedOnly
deriving DecidableEq

/-- The dict comprehension building `rule_mapping` in
`list_installed_rules`: id to record, a later record with the same id
overwriting an earlier one. -/
def build_rule_mapping (rs : List DbRule) (tid : String) : Option DbRule :=
  rs.foldl (fun acc r => if r.id = tid then some r else acc) none

/-- The `InstalledRule` item built from a joined record
(`src/routes/rpc.py:204`): all rule fields plus the action detail when
the action relationship is set. -/
def installed_view (r : DbRule) : RuleView :=
  .installed r.id r.rname r.description r.trigger r.is_suspended
    (r.action.map (fun a => ⟨a.id, a.aname, a.description, a.action_code⟩))

/-- Embedding of the `list_installed_rules` route
(`src/routes/rpc.py:149`), given the engine's live task-id snapshot and
the database contents: empty snapshot short-circuits; otherwise the
records are fetched for the live ids, mapped by id, and each live id
yields an installed entry (subject to the suspended/running filter) or an
orphaned entry (kept when unfiltered or filtering for orphans). -/
def list_installed_rules (ids : List String) (db : List DbRule)
    (status_filter : Option StatusFilter) : List RuleView :=
  if ids.isEmpty then []
  else
    let db_rules := db.filter (fun r => ids.contains r.id)
    ids.filterMap (fun tid =>
      match build_rule_mapping db_rules tid with
      | some r =>
        match status_filter with
        | none => some (installed_view r)
        | some StatusFilter.suspended =>
          if r.is_suspended then some (installed_view r) else none
        | some StatusFilter.running =>
          if r.is_suspended then none else some (installed_view r)
        | some StatusFilter.orphanedOnly => none
      | none =>
        match status_filter with
        | none => some (RuleView.orphaned tid)
        | some StatusFilter.orphanedOnly => some (RuleView.orphaned tid)
        | _ => none)

/-- Outcome of an RPC route: a success response, or an `HTTPException`
with the given status code. -/
inductive RpcOutcome where
  | success
  | httpError (status : Nat)
deriving DecidableEq

/-- Body of the `uninstall_rule` route's `try` block
(`src/routes/rpc.py:128`): probe-and-remove on the engine; a missing task
raises an `HTTPException(404)` inside the block. -/
def uninstall_rule_body (st : EngineState) (rule_id : String) :
    EngineState × Except Nat Unit :=
  let res := cancel_task st rule_id
  if res.1 then (res.2, .ok ()) else (res.2, .error 404)

/-- Embedding of the `uninstall_rule` route (`src/routes/rpc.py:111`).
The `except Exception` clause wraps every exception escaping the `try`
block — including the `HTTPException(404)` raised for an unknown id,
since `HTTPException` subclasses `Exception` — into an
`HTTPException(500)`. -/
def uninstall_rule_route (st : EngineState) (rule_id : String) :
    EngineState × RpcOutcome :=
  match uninstall_rule_body st rule_id with
  | (st1, .ok _) => (st1, .success)
  | (st1, .error _) => (st1, .httpError 500)

/-- Database lookup `db.query(Rule).filter(Rule.id == rule_id).first()`. -/
def find_rule (db : List DbRule) (rule_id : String) : Option DbRule :=
  db.find? (fun r => r.id = rule_id)

/-- Embedding of the `install_rule` route (`src/routes/rpc.py:35`):
missing rule → 404, missing action → 400 (both raised outside the `try`
block); inside it, compile the action, detect the rule kind, compile the
matching provider, submit under the rule id, then mark the task suspended
when the persisted flag is set.  Every exception raised inside the block
is converted to an `HTTPException(500)` by the catch-all clause. -/
def install_rule_route (execFn : ExecFn) (registry : List String)
    (db : List DbRule) (rule_id : String) (st : EngineState) :
    EngineState × RpcOutcome :=
  match find_rule db rule_id with
  | none => (st, .httpError 404)
  | some r =>
    match r.action with
    | none => (st, .httpError 400)
    | some act =>
      match compile_action_function execFn registry act.action_code with
      | .error _ => (st, .httpError 500)
      | .ok _ =>
        match detect_rule_type r.trigger with
        | .error _ => (st, .httpError 500)
        | .ok RuleKind.trigger =>
          match compile_trigger_function execFn registry r.trigger with
          | .error _ => (st, .httpError 500)
          | .ok _ =>
            match submit_rule st rule_id with
            | .error _ => (st, .httpError 500)
            | .ok st1 =>
              if r.is_suspended then (engine_suspend st1 rule_id, .success)
              else (st1, .success)
        | .ok RuleKind.timer =>
          match compile_time_provider execFn registry r.trigger with
          | .error _ => (st, .httpError 500)
          | .ok _ =>
            match submit_rule st rule_id with
            | .error _ => (st, .httpError 500)
            | .ok st1 =>
              if r.is_suspended then (engine_suspend st1 rule_id, .success)
              else (st1, .success)

/-- Embedding of `_install_single_rule` (`src/startup.py:57`): a missing
action, any compilation failure, and an engine rejection all raise; on
success the rule runs under its persisted id as task id, marked suspended
in the engine when its persisted flag is set. -/
def install_single_rule (execFn : ExecFn) (registry : List String)
    (r : DbRule) (st : EngineState) : Except Err EngineState :=
  match r.action with
  | none => .error .noAssociatedAction
  | some act =>
    match compile_action_function execFn registry act.action_code with
    | .error e => .error e
    | .ok _ =>
      match detect_rule_type r.trigger with
      | .error e => .error e
      | .ok RuleKind.trigger =>
        match compile_trigger_function execFn registry r.trigger with
        | .error e => .error e
        | .ok _ =>
          match submit_rule st r.id with
          | .error e => .error e
          | .ok st1 =>
            .ok (if r.is_suspended then engine_suspend st1 r.id else st1)
      | .ok RuleKind.timer =>
        match compile_time_provider execFn registry r.trigger with
        | .error e => .error e
        | .ok _ =>
          match submit_rule st r.id with
          | .error e => .error e
          | .ok st1 =>
            .ok (if r.is_suspended then engine_suspend st1 r.id else st1)

/-- Embedding of `auto_install_database_rules` (`src/startup.py:21`): the
persisted rules are installed one by one; a per-rule failure is logged
and skipped (the fold continues with the engine state unchanged), so the
batch itself never raises.  Returns the final engine state and the
`installed_count`. -/
def auto_install_database_rules (execFn : ExecFn) (registry : List String)
    (rules : List DbRule) (st : EngineState) : EngineState × Nat :=
  rules.foldl (fun acc r =>
    match install_single_rule execFn registry r acc.1 with
    | .ok st1 => (st1, acc.2 + 1)
    | .error _ => (acc.1, acc.2)) (st, 0)

/-- Binding a top-level statement would introduce under Python execution:
a (sync or async) function object for a def, a class object for a class
statement, and a plain non-callable value for an assignment (the concrete
value is immaterial to the pipeline, which only tests callability); a
`del` statement introduces no binding. -/
def top_level_binding : Stmt → Option (String × PyVal)
  | .funcDef f ps _ _ => some (f, .func false ps)
  | .asyncFuncDef f ps _ _ => some (f, .func true ps)
  | .classDef c _ => some (c, .cls c)
  | .assign t => some (t, .noneVal)
  | _ => none

/-- Dict update `ns[k] = v`: replace the value in place when the key
exists, append the binding otherwise. -/
def ns_set (ns : NS) (k : String) (v : PyVal) : NS :=
  if (ns_keys ns).contains k then
    ns.map (fun p => if p.1 = k then (k, v) else p)
  else ns ++ [(k, v)]

/-- Dict deletion `del ns[k]`. -/
def ns_del (ns : NS) (k : String) : NS :=
  ns.filter (fun p => !(p.1 = k))

/-- Sequential effect of top-level statements on a namespace: defs,
classes and assignments (re)bind their name, `del` removes its target,
other statements leave the namespace unchanged. -/
def exec_stmts : List Stmt → NS → NS
  | [], ns => ns
  | s :: rest, ns =>
    exec_stmts rest
      (match s with
       | .delStmt t => ns_del ns t
       | s2 =>
         match top_level_binding s2 with
         | some (n, v) => ns_set ns n v
         | none => ns)

/-- A concrete snippet evaluator modelling CPython `exec(code, ns)` on
modules of plain top-level statements: as documented for `exec`/`eval`,
when the globals dict carries no `__builtins__` key, a reference to the
builtins module's dict — a non-callable value — is inserted under that
key before the code runs; the statements then execute in order.  Used to
instantiate the abstract `ExecFn` in concrete theorems. -/
def simple_exec : ExecFn :=
  fun m ns =>
    let ns1 := if (ns_keys ns).contains "__builtins__" then ns
               else ns ++ [("__builtins__", PyVal.dictVal)]
    .ok (exec_stmts m.toList ns1)

lemma contains_iff_mem (l : List String) (a : String) : l.contains a = true ↔ a ∈ l := by
  exact List.elem_iff

lemma filterMap_eq_map_of {α β : Type} (l : List α) (f : α → Option β) (g : α → β)
    (h : ∀ a ∈ l, f a = some (g a)) : l.filterMap f = l.map g := by
  induction l with
  | nil => rfl
  | cons a rest ih =>
    simp only [List.filterMap_cons, List.map_cons, h a (by simp)]
    exact congrArg _ (ih (fun b hb => h b (by simp [hb])))

/-- C2: for every source containing an import statement (plain or
from-form) at any nesting depth, compilation of an action, trigger, or
time-provider source fails with `ImportNotAllowed`; the result is the same
for every possible snippet evaluator, so the source is never executed —
static validation precedes execution in every compilation path. -/
theorem import_rejected_before_execution
    (execFn : ExecFn) (registry : List String) (m : StmtSeq)
    (h : m.hasImport = true) :
    compile_action_function execFn registry (.mod m) = .error .importNotAllowed
    ∧ compile_trigger_function execFn registry (.mod m) = .error .importNotAllowed
    ∧ compile_time_provider execFn registry (.mod m) = .error .importNotAllowed := by
  refine ⟨?_, ?_, ?_⟩ <;>
    simp [compile_action_function, compile_trigger_function, compile_time_provider,
      validate_no_imports, h]

theorem import_rejected_before_execution_witness :
    (StmtSeq.hasImport
        (seqOf [Stmt.ifStmt (seqOf [Stmt.importPlain]) (seqOf [])]) = true)
    ∧ compile_action_function simple_exec []
        (.mod (seqOf [Stmt.ifStmt (seqOf [Stmt.importPlain]) (seqOf [])]))
        = .error .importNotAllowed :=
  ⟨rfl, (import_rejected_before_execution simple_exec []
      (seqOf [Stmt.ifStmt (seqOf [Stmt.importPlain]) (seqOf [])]) rfl).1⟩

/-- C10: the post-evaluation only-functions check inspects only names
newly added to the namespace; for every execution result whose names all
already existed in the safe namespace (rebinding pre-loaded symbols such
as `datetime` or a registered utility type name to arbitrary, possibly
non-callable, values without introducing any new name), the check accepts
and no `NonFunctionTopLevel` failure occurs. -/
theorem rebinding_preloaded_names_accepted
    (registry : List String) (after : NS)
    (h : ∀ n ∈ ns_keys after, n ∈ ns_keys (get_safe_namespace registry)) :
    validate_only_functions (get_safe_namespace registry) after = .ok () := by
  have hadd : added_names (get_safe_namespace registry) after = [] := by
    refine List.filter_eq_nil_iff.mpr (fun n hn => ?_)
    simp only [Bool.not_eq_true', Bool.not_eq_false]
    exact (contains_iff_mem _ _).mpr (h n hn)
  simp [validate_only_functions, hadd]

theorem rebinding_preloaded_names_accepted_witness :
    (∀ n ∈ ns_keys [("datetime", PyVal.intVal 5),
        ("AbstractCondition", PyVal.noneVal),
        ("CosmoUtils", PyVal.cls "CosmoUtils")],
      n ∈ ns_keys (get_safe_namespace []))
    ∧ validate_only_functions (get_safe_namespace [])
        [("datetime", PyVal.intVal 5),
         ("AbstractCondition", PyVal.noneVal),
         ("CosmoUtils", PyVal.cls "CosmoUtils")] = .ok () :=
  ⟨by decide, rebinding_preloaded_names_accepted []
      [("datetime", PyVal.intVal 5),
       ("AbstractCondition", PyVal.noneVal),
       ("CosmoUtils", PyVal.cls "CosmoUtils")] (by decide)⟩

/-- Module defining only a valid async `action` — the one form the spec
says is permitted at top level. -/
def plain_action_module : StmtSeq :=
  seqOf [Stmt.asyncFuncDef "action" [] none (seqOf [])]

/-- Module defining only a `trigger` returning `AbstractCondition`. -/
def plain_trigger_module : StmtSeq :=
  seqOf [Stmt.funcDef "trigger" [] (some "AbstractCondition") (seqOf [])]

/-- Module defining only a `trigger` returning `datetime | None`. -/
def plain_timer_module : StmtSeq :=
  seqOf [Stmt.funcDef "trigger" [] (some "datetime | None") (seqOf [])]

/-- Module defining a class alongside a valid async `action`. -/
def c3_class_module : StmtSeq :=
  seqOf [Stmt.classDef "Foo" (seqOf []),
         Stmt.asyncFuncDef "action" [] none (seqOf [])]

/-- C3: evaluation of the code at the failing input.  `exec` against a
fresh globals dict inserts the non-callable `__builtins__` binding before
the source runs, the before/after key diff of `_validate_only_functions`
counts that key as a newly-introduced name, and so every ordinary source
fails compilation with `NonFunctionTopLevel` naming `__builtins__` — 
including a module consisting solely of the async `action` definition
that the claim says is permitted, the trigger and time-provider sources,
and the class-defining module. -/
theorem only_functions_check_trips_on_builtins :
    compile_action_function simple_exec [] (.mod plain_action_module)
      = .error (.nonFunctionTopLevel "__builtins__")
    ∧ compile_trigger_function simple_exec [] (.mod plain_trigger_module)
      = .error (.nonFunctionTopLevel "__builtins__")
    ∧ compile_time_provider simple_exec [] (.mod plain_timer_module)
      = .error (.nonFunctionTopLevel "__builtins__")
    ∧ compile_action_function simple_exec [] (.mod c3_class_module)
      = .error (.nonFunctionTopLevel "__builtins__")
    ∧ simple_exec plain_action_module (get_safe_namespace [])
      = .ok (get_safe_namespace []
          ++ [("__builtins__", PyVal.dictVal), ("action", PyVal.func true [])])
    ∧ "__builtins__" ∈ added_names (get_safe_namespace [])
        (get_safe_namespace []
          ++ [("__builtins__", PyVal.dictVal), ("action", PyVal.func true [])])
    ∧ callable PyVal.dictVal = false := by
  refine ⟨rfl, rfl, rfl, rfl, rfl, by decide, rfl⟩

/-- Trigger source whose return annotation strictly contains the base
condition type's name without being it. -/
def c1_code : PyCode :=
  .mod (seqOf [Stmt.funcDef "trigger" [] (some "list[AbstractCondition]") (seqOf [])])

/-- C1 counterexample: the claim says classification yields kind
`trigger` exactly when the annotation is the exact text
`AbstractCondition` and fails with `UnrecognizedReturnType` on any other
annotation, but `detect_rule_type` tests substring containment of the
normalized annotation: the annotation `list[AbstractCondition]` — not the
exact text, and none of the three timer spellings — is classified as a
`trigger` rule instead of failing. -/
theorem detect_rule_type_substring_counterexample :
    extract_return_ann c1_code "trigger" = some "list[AbstractCondition]"
    ∧ detect_rule_type c1_code = .ok RuleKind.trigger
    ∧ "list[AbstractCondition]" ≠ "AbstractCondition"
    ∧ "list[AbstractCondition]" ∉
        ["datetime | None", "datetime|None", "Optional[datetime]"] := by
  refine ⟨rfl, rfl, by decide, by decide⟩

/-- C1 amended: rule-kind classification reads the trigger function's
return annotation as written source text (not evaluated) and normalizes
whitespace and case; it yields kind `trigger` whenever the normalized
text contains `abstractcondition` as a substring (in particular for the
exact text `AbstractCondition`); otherwise it yields kind `timer`
whenever the normalized text contains `datetime|none`, or contains both
`datetime` and `none`, or contains `optional[datetime]` (in particular
for the three nullable-timestamp spellings `datetime | None`,
`datetime|None`, `Optional[datetime]`); otherwise — and likewise when the
annotation is missing — it fails with `UnrecognizedReturnType`. -/
theorem detect_rule_type_amended
    (code : PyCode) (ann : String)
    (hext : extract_return_ann code "trigger" = some ann) :
    (has_sub "abstractcondition".data (normalize_ret ann) = true →
        detect_rule_type code = .ok RuleKind.trigger)
    ∧ (has_sub "abstractcondition".data (normalize_ret ann) = false →
       (has_sub "datetime|none".data (normalize_ret ann)
         || (has_sub "datetime".data (normalize_ret ann)
             && has_sub "none".data (normalize_ret ann))
         || has_sub "optional[datetime]".data
             ((normalize_ret ann).filter (fun c => !(c = Char.ofNat 32)))) = true →
        detect_rule_type code = .ok RuleKind.timer)
    ∧ (has_sub "abstractcondition".data (normalize_ret ann) = false →
       (has_sub "datetime|none".data (normalize_ret ann)
         || (has_sub "datetime".data (normalize_ret ann)
             && has_sub "none".data (normalize_ret ann))
         || has_sub "optional[datetime]".data
             ((normalize_ret ann).filter (fun c => !(c = Char.ofNat 32)))) = false →
        detect_rule_type code = .error (.unrecognizedReturnType (some ann)))
    ∧ (∀ code2 : PyCode, extract_return_ann code2 "trigger" = none →
        detect_rule_type code2 = .error (.unrecognizedReturnType none)) := by
  refine ⟨?_, ?_, ?_, ?_⟩
  · intro h1
    simp [detect_rule_type, hext, detect_from_ann, h1]
  · intro h1 h2
    simp [detect_rule_type, hext, detect_from_ann, h1, h2]
  · intro h1 h2
    simp only [Bool.or_eq_false_iff, Bool.and_eq_false_iff] at h2
    simp [detect_rule_type, hext, detect_from_ann, h1, h2.1, h2.2]
    rcases h2.1.2 with h | h <;> simp [h]
  · intro code2 hnone
    simp [detect_rule_type, hnone]

theorem detect_rule_type_amended_witness :
    (extract_return_ann
        (.mod (seqOf [Stmt.funcDef "trigger" [] (some "AbstractCondition") (seqOf [])]))
        "trigger" = some "AbstractCondition")
    ∧ has_sub "abstractcondition".data (normalize_ret "AbstractCondition") = true
    ∧ detect_rule_type
        (.mod (seqOf [Stmt.funcDef "trigger" [] (some "AbstractCondition") (seqOf [])]))
        = .ok RuleKind.trigger
    ∧ detect_rule_type
        (.mod (seqOf [Stmt.funcDef "trigger" [] (some "Optional[datetime]") (seqOf [])]))
        = .ok RuleKind.timer
    ∧ detect_rule_type
        (.mod (seqOf [Stmt.funcDef "trigger" [] (some "datetime | None") (seqOf [])]))
        = .ok RuleKind.timer
    ∧ detect_rule_type
        (.mod (seqOf [Stmt.funcDef "trigger" [] (some "datetime|None") (seqOf [])]))
        = .ok RuleKind.timer
    ∧ detect_rule_type
        (.mod (seqOf [Stmt.funcDef "trigger" [] (some "int") (seqOf [])]))
        = .error (.unrecognizedReturnType (some "int"))
    ∧ detect_rule_type
        (.mod (seqOf [Stmt.funcDef "trigger" [] none (seqOf [])]))
        = .error (.unrecognizedReturnType none) :=
  ⟨rfl, by decide,
    (detect_rule_type_amended
      (.mod (seqOf [Stmt.funcDef "trigger" [] (some "AbstractCondition") (seqOf [])]))
      "AbstractCondition" rfl).1 (by decide),
    (detect_rule_type_amended
      (.mod (seqOf [Stmt.funcDef "trigger" [] (some "Optional[datetime]") (seqOf [])]))
      "Optional[datetime]" rfl).2.1 (by decide) (by decide),
    (detect_rule_type_amended
      (.mod (seqOf [Stmt.funcDef "trigger" [] (some "datetime | None") (seqOf [])]))
      "datetime | None" rfl).2.1 (by decide) (by decide),
    (detect_rule_type_amended
      (.mod (seqOf [Stmt.funcDef "trigger" [] (some "datetime|None") (seqOf [])]))
      "datetime|None" rfl).2.1 (by decide) (by decide),
    (detect_rule_type_amended
      (.mod (seqOf [Stmt.funcDef "trigger" [] (some "int") (seqOf [])]))
      "int" rfl).2.2.1 (by decide) (by decide),
    (detect_rule_type_amended
      (.mod (seqOf [Stmt.funcDef "trigger" [] (some "int") (seqOf [])]))
      "int" rfl).2.2.2
      (.mod (seqOf [Stmt.funcDef "trigger" [] none (seqOf [])])) rfl⟩

/-- A parameter that passes every per-parameter check of
`_validate_function_parameters` other than the duplicate check: positional
kind, no default, annotated, resolved to a class that is `CosmoUtils` or
registered. -/
def param_passes (registry : List String) (p : Param) : Bool :=
  (!(p.kind == ParamKind.keywordOnly || p.kind == ParamKind.varKeyword))
  && (!p.hasDefault) && p.hasAnn
  && (match p.hint with
      | some (TypeHint.cls t) => (t == "CosmoUtils") || registry.contains t
      | _ => false)

/-- The resolved utility type a parameter declares, when its hint is a
class. -/
def param_cls_name (p : Param) : Option String :=
  match p.hint with
  | some (TypeHint.cls t) => some t
  | _ => none

lemma param_passes_fields (registry : List String) (p : Param)
    (hp : param_passes registry p = true) :
    p.kind ≠ ParamKind.keywordOnly ∧ p.kind ≠ ParamKind.varKeyword
    ∧ p.hasDefault = false ∧ p.hasAnn = true
    ∧ ∃ t, p.hint = some (TypeHint.cls t)
        ∧ (t = "CosmoUtils" ∨ t ∈ registry) := by
  simp only [param_passes, Bool.and_eq_true, Bool.not_eq_true',
    Bool.or_eq_false_iff, beq_eq_false_iff_ne, ne_eq] at hp
  obtain ⟨⟨⟨hk, hd⟩, ha⟩, hh⟩ := hp
  refine ⟨hk.1, hk.2, hd, ha, ?_⟩
  cases hph : p.hint with
  | none => rw [hph] at hh; simp at hh
  | some th =>
    cases th with
    | notClass => rw [hph] at hh; simp at hh
    | cls t =>
      rw [hph] at hh
      simp only [Bool.or_eq_true, beq_iff_eq] at hh
      exact ⟨t, rfl, hh.imp id (List.elem_iff.mp ·)⟩

lemma validate_loop_step (registry seen : List String) (p : Param)
    (rest : List Param) (t : String)
    (hp : param_passes registry p = true) (ht : param_cls_name p = some t)
    (hts : t ∉ seen) :
    validate_params_loop registry seen (p :: rest)
      = validate_params_loop registry (t :: seen) rest := by
  obtain ⟨hk1, hk2, hd, ha, u, hu, hru⟩ := param_passes_fields registry p hp
  have htu : t = u := by
    simp [param_cls_name, hu] at ht
    exact ht.symm
  subst htu
  simp only [validate_params_loop]
  rw [if_neg (by simp [hk1, hk2]), if_neg (by simp [hd]), if_neg (by simp [ha]), hu]
  simp only
  rw [if_neg hts]
  rcases hru with hc | hr
  · rw [if_pos hc]
  · by_cases hc : t = "CosmoUtils"
    · rw [if_pos hc]
    · rw [if_neg hc, if_pos hr]

lemma validate_loop_head_dup (registry seen : List String) (p : Param)
    (rest : List Param) (t : String)
    (hp : param_passes registry p = true) (ht : param_cls_name p = some t)
    (hts : t ∈ seen) :
    validate_params_loop registry seen (p :: rest)
      = .error (.duplicateUtilityType t) := by
  obtain ⟨hk1, hk2, hd, ha, u, hu, _⟩ := param_passes_fields registry p hp
  have htu : t = u := by
    simp [param_cls_name, hu] at ht
    exact ht.symm
  subst htu
  unfold validate_params_loop
  rw [if_neg (by simp [hk1, hk2]), if_neg (by simp [hd]), if_neg (by simp [ha]), hu]
  simp only
  rw [if_pos hts]

lemma validate_loop_dup (registry : List String) :
    ∀ (ps : List Param) (seen : List String),
    (∀ p ∈ ps, param_passes registry p = true) →
    (¬ (ps.filterMap param_cls_name).Nodup
      ∨ ∃ t ∈ ps.filterMap param_cls_name, t ∈ seen) →
    ∃ t, validate_params_loop registry seen ps
        = .error (.duplicateUtilityType t) := by
  intro ps
  induction ps with
  | nil => intro seen _ hbad; rcases hbad with h | h <;> simp at h
  | cons p rest ih =>
    intro seen hall hbad
    have hp := hall p (by simp)
    obtain ⟨_, _, _, _, u, hu, _⟩ := param_passes_fields registry p hp
    have hname : param_cls_name p = some u := by simp [param_cls_name, hu]
    have hfm : (p :: rest).filterMap param_cls_name
        = u :: rest.filterMap param_cls_name := by
      simp [List.filterMap_cons, hname]
    by_cases hseen : u ∈ seen
    · exact ⟨u, validate_loop_head_dup registry seen p rest u hp hname hseen⟩
    · rw [validate_loop_step registry seen p rest u hp hname hseen]
      apply ih (u :: seen) (fun q hq => hall q (by simp [hq]))
      rw [hfm] at hbad
      rcases hbad with hnd | ⟨t, htm, hts⟩
      · by_cases hmem : u ∈ rest.filterMap param_cls_name
        · exact Or.inr ⟨u, hmem, by simp⟩
        · left
          intro hnd2
          exact hnd (List.nodup_cons.mpr ⟨hmem, hnd2⟩)
      · rcases List.mem_cons.mp htm with rfl | htm2
        · exact absurd hts hseen
        · exact Or.inr ⟨t, htm2, by simp [hts]⟩

lemma validate_loop_ok_nodup (registry : List String) :
    ∀ (ps : List Param) (seen : List String),
    validate_params_loop registry seen ps = .ok () →
    (ps.filterMap param_cls_name).Nodup
    ∧ ∀ t ∈ ps.filterMap param_cls_name, t ∉ seen := by
  intro ps
  induction ps with
  | nil => intro seen _; simp
  | cons p rest ih =>
    intro seen h
    unfold validate_params_loop at h
    split at h
    · exact absurd h (by simp)
    · split at h
      · exact absurd h (by simp)
      · split at h
        · exact absurd h (by simp)
        · split at h
          · exact absurd h (by simp)
          · exact absurd h (by simp)
          · rename_i t heq
            split at h
            · exact absurd h (by simp)
            · rename_i hts
              have hrec : validate_params_loop registry (t :: seen) rest = .ok () := by
                split at h
                · exact h
                · split at h
                  · exact h
                  · exact absurd h (by simp)
              obtain ⟨hnd, hdisj⟩ := ih (t :: seen) hrec
              have hname : param_cls_name p = some t := by simp [param_cls_name, heq]
              have hfm : (p :: rest).filterMap param_cls_name
                  = t :: rest.filterMap param_cls_name := by
                simp [List.filterMap_cons, hname]
              rw [hfm]
              constructor
              · refine List.nodup_cons.mpr ⟨fun hmem => ?_, hnd⟩
                exact hdisj t hmem (by simp)
              · intro u hu
                rcases List.mem_cons.mp hu with rfl | hu2
                · exact hts
                · intro huseen
                  exact hdisj u hu2 (by simp [huseen])

lemma validate_loop_prefix (registry : List String) :
    ∀ (pre : List Param) (l : List Param) (seen : List String),
    (∀ p ∈ pre, param_passes registry p = true) →
    ((pre.filterMap param_cls_name) ++ seen).Nodup →
    validate_params_loop registry seen (pre ++ l)
      = validate_params_loop registry ((pre.filterMap param_cls_name).reverse ++ seen) l := by
  intro pre
  induction pre with
  | nil => intro l seen _ _; simp
  | cons p rest ih =>
    intro l seen hall hnd
    have hp := hall p (by simp)
    obtain ⟨_, _, _, _, u, hu, _⟩ := param_passes_fields registry p hp
    have hname : param_cls_name p = some u := by simp [param_cls_name, hu]
    have hfm : (p :: rest).filterMap param_cls_name
        = u :: rest.filterMap param_cls_name := by
      simp [List.filterMap_cons, hname]
    rw [hfm] at hnd ⊢
    simp only [List.cons_append] at hnd
    have hnd2 : (rest.filterMap param_cls_name ++ (u :: seen)).Nodup :=
      List.perm_middle.symm.nodup hnd
    have hus : u ∉ seen := by
      intro hin
      exact (List.nodup_cons.mp hnd).1 (List.mem_append.mpr (Or.inr hin))
    calc validate_params_loop registry seen (p :: (rest ++ l))
        = validate_params_loop registry (u :: seen) (rest ++ l) :=
          validate_loop_step registry seen p (rest ++ l) u hp hname hus
      _ = validate_params_loop registry
            ((rest.filterMap param_cls_name).reverse ++ (u :: seen)) l :=
          ih l (u :: seen) (fun q hq => hall q (by simp [hq])) hnd2
      _ = validate_params_loop registry
            ((u :: rest.filterMap param_cls_name).reverse ++ seen) l := by
          simp

/-- C7: for every function whose parameters each pass the per-parameter
checks but whose list declares the same resolved utility type for two
different parameters, signature validation fails with
`DuplicateUtilityType`, in whatever order the parameters appear (the
conclusion holds for every permutation of the list); consequently, within
any parameter list that passes validation, each declared utility type
appears at most once. -/
theorem duplicate_utility_type_rejected
    (registry : List String) (ps qs : List Param)
    (hall : ∀ p ∈ ps, param_passes registry p = true)
    (hdup : ¬ (ps.filterMap param_cls_name).Nodup)
    (hperm : ps.Perm qs) :
    (∃ t, validate_function_parameters registry qs
        = .error (.duplicateUtilityType t))
    ∧ ∀ rs : List Param, validate_function_parameters registry rs = .ok () →
        (rs.filterMap param_cls_name).Nodup := by
  constructor
  · apply validate_loop_dup registry qs []
    · exact fun p hp => hall p (hperm.symm.subset hp)
    · left
      intro hnd
      exact hdup ((hperm.filterMap param_cls_name).nodup_iff.mpr hnd)
  · intro rs h
    exact (validate_loop_ok_nodup registry rs [] h).1

/-- Two parameters declaring the `CosmoUtils` utility type. -/
def c7_p1 : Param :=
  ⟨"u", ParamKind.positionalOrKeyword, false, true, some (TypeHint.cls "CosmoUtils")⟩

/-- Second parameter declaring the same utility type as `c7_p1`. -/
def c7_p2 : Param :=
  ⟨"v", ParamKind.positionalOrKeyword, false, true, some (TypeHint.cls "CosmoUtils")⟩

theorem duplicate_utility_type_rejected_witness :
    (∀ p ∈ [c7_p1, c7_p2], param_passes [] p = true)
    ∧ ¬ ([c7_p1, c7_p2].filterMap param_cls_name).Nodup
    ∧ (∃ t, validate_function_parameters [] [c7_p2, c7_p1]
        = .error (.duplicateUtilityType t))
    ∧ ([c7_p1].filterMap param_cls_name).Nodup :=
  ⟨by decide, by decide,
    (duplicate_utility_type_rejected [] [c7_p1, c7_p2] [c7_p2, c7_p1]
      (by decide) (by decide) (List.Perm.swap c7_p2 c7_p1 [])).1,
    (duplicate_utility_type_rejected [] [c7_p1, c7_p2] [c7_p2, c7_p1]
      (by decide) (by decide) (List.Perm.swap c7_p2 c7_p1 [])).2 [c7_p1] rfl⟩

/-- C8: after any prefix of parameters that pass all checks with distinct
utility types, a keyword-only parameter fails signature validation with
`KeywordParameterNotAllowed`, a (positional) parameter carrying a default
fails with `DefaultNotAllowed`, and a (positional, default-free)
parameter lacking a type annotation fails with `MissingTypeHint` — three
pairwise-distinct error kinds, so none of the three defects is ever
silently accepted or reported generically. -/
theorem invalid_parameters_distinct_errors
    (registry : List String) (pre : List Param) (p : Param) (rest : List Param)
    (hpre : ∀ q ∈ pre, param_passes registry q = true)
    (hnodup : (pre.filterMap param_cls_name).Nodup) :
    (p.kind = ParamKind.keywordOnly →
        validate_function_parameters registry (pre ++ p :: rest)
          = .error (.keywordParameterNotAllowed p.pname))
    ∧ (p.kind ≠ ParamKind.keywordOnly → p.kind ≠ ParamKind.varKeyword →
       p.hasDefault = true →
        validate_function_parameters registry (pre ++ p :: rest)
          = .error (.defaultNotAllowed p.pname))
    ∧ (p.kind ≠ ParamKind.keywordOnly → p.kind ≠ ParamKind.varKeyword →
       p.hasDefault = false → p.hasAnn = false →
        validate_function_parameters registry (pre ++ p :: rest)
          = .error (.missingTypeHint p.pname))
    ∧ (∀ a b : String, Err.keywordParameterNotAllowed a ≠ Err.defaultNotAllowed b
        ∧ Err.keywordParameterNotAllowed a ≠ Err.missingTypeHint b
        ∧ Err.defaultNotAllowed a ≠ Err.missingTypeHint b) := by
  have hpref : validate_function_parameters registry (pre ++ p :: rest)
      = validate_params_loop registry
          ((pre.filterMap param_cls_name).reverse) (p :: rest) := by
    have := validate_loop_prefix registry pre (p :: rest) [] hpre
      (by simpa using hnodup)
    simpa [validate_function_parameters] using this
  refine ⟨?_, ?_, ?_, ?_⟩
  · intro hk
    rw [hpref]
    simp only [validate_params_loop]
    rw [if_pos (Or.inl hk)]
  · intro hk1 hk2 hd
    rw [hpref]
    simp only [validate_params_loop]
    rw [if_neg (by simp [hk1, hk2]), if_pos hd]
  · intro hk1 hk2 hd ha
    rw [hpref]
    simp only [validate_params_loop]
    rw [if_neg (by simp [hk1, hk2]), if_neg (by simp [hd]), if_pos ha]
  · intro a b
    refine ⟨by simp, by simp, by simp⟩

/-- A keyword-only parameter. -/
def c8_kw : Param :=
  ⟨"k", ParamKind.keywordOnly, false, true, some (TypeHint.cls "CosmoUtils")⟩

/-- A positional parameter with a default value. -/
def c8_default : Param :=
  ⟨"d", ParamKind.positionalOrKeyword, true, true, some (TypeHint.cls "CosmoUtils")⟩

/-- A positional parameter without a type annotation. -/
def c8_unannotated : Param :=
  ⟨"m", ParamKind.positionalOrKeyword, false, false, none⟩

theorem invalid_parameters_distinct_errors_witness :
    validate_function_parameters [] [c8_kw]
      = .error (.keywordParameterNotAllowed "k")
    ∧ validate_function_parameters [] [c8_default]
      = .error (.defaultNotAllowed "d")
    ∧ validate_function_parameters [] [c8_unannotated]
      = .error (.missingTypeHint "m") :=
  ⟨(invalid_parameters_distinct_errors [] [] c8_kw []
      (by simp) (by simp)).1 rfl,
   (invalid_parameters_distinct_errors [] [] c8_default []
      (by simp) (by simp)).2.1 (by decide) (by decide) rfl,
   (invalid_parameters_distinct_errors [] [] c8_unannotated []
      (by simp) (by simp)).2.2.1 (by decide) (by decide) rfl rfl⟩

/-- C4 counterexample: the claim says uninstalling an id that was never
installed returns a clear boolean false rather than raising; the engine
level probe indeed reports false without error, but the `uninstall_rule`
route converts that false into a raised `HTTPException` (the intended 404
is itself swallowed by the route's catch-all handler and surfaces as a
500), so the operation does not return a boolean for an unknown id. -/
theorem uninstall_unknown_id_raises :
    cancel_task [] "never-installed" = (false, [])
    ∧ uninstall_rule_route [] "never-installed"
        = ([], RpcOutcome.httpError 500)
    ∧ uninstall_rule_route [] "never-installed" ≠ ([], RpcOutcome.success) := by
  refine ⟨rfl, rfl, by decide⟩

/-- C4 amended: the engine-level uninstall (`RuleManager.uninstall_rule`,
modelled from the spec's engine contract) is an idempotent
probe-and-remove returning a boolean — true exactly when a task with the
id is live (and the task is removed, the id no longer being live
afterwards), false when not, in which case the engine state is unchanged
and no error is raised; the HTTP route, however, maps the false case to a
raised `HTTPException` (surfaced as 500 by its catch-all handler) instead
of returning the boolean. -/
theorem uninstall_route_amended (st : EngineState) (rule_id : String) :
    uninstall_rule_route st rule_id
      = ((cancel_task st rule_id).2,
         if (cancel_task st rule_id).1 then RpcOutcome.success
         else RpcOutcome.httpError 500)
    ∧ ((cancel_task st rule_id).1 = true ↔ rule_id ∈ installed_ids st)
    ∧ rule_id ∉ installed_ids (cancel_task st rule_id).2
    ∧ (rule_id ∉ installed_ids st → (cancel_task st rule_id).2 = st) := by
  refine ⟨?_, ?_, ?_, ?_⟩
  · by_cases h : (cancel_task st rule_id).1 <;>
      simp [uninstall_rule_route, uninstall_rule_body, h]
  · exact contains_iff_mem (installed_ids st) rule_id
  · intro hmem
    simp only [cancel_task, installed_ids, List.mem_map] at hmem
    obtain ⟨p, hp, hpe⟩ := hmem
    have := List.of_mem_filter hp
    rw [hpe] at this
    simp at this
  · intro hmem
    simp only [cancel_task]
    refine List.filter_eq_self.mpr (fun p hp => ?_)
    simp only [Bool.not_eq_true', decide_eq_false_iff_not]
    intro he
    exact hmem (by simpa [installed_ids, he] using List.mem_map_of_mem Prod.fst hp)

lemma build_map_foldl_filter (ids : List String) (tid : String)
    (htid : ids.contains tid = true) :
    ∀ (db : List DbRule) (acc : Option DbRule),
    (db.filter (fun r => ids.contains r.id)).foldl
        (fun acc r => if r.id = tid then some r else acc) acc
      = db.foldl (fun acc r => if r.id = tid then some r else acc) acc := by
  intro db
  induction db with
  | nil => intro acc; rfl
  | cons r rs ih =>
    intro acc
    by_cases hp : ids.contains r.id = true
    · rw [List.filter_cons_of_pos (by simpa using hp)]
      simp only [List.foldl_cons]
      exact ih _
    · rw [List.filter_cons_of_neg (by simpa using hp)]
      have hskip : (if r.id = tid then some r else acc) = acc := by
        rw [if_neg]
        intro he
        rw [he] at hp
        exact hp htid
      simp only [List.foldl_cons, hskip]
      exact ih acc

lemma build_rule_mapping_filter (db : List DbRule) (ids : List String)
    (tid : String) (htid : ids.contains tid = true) :
    build_rule_mapping (db.filter (fun r => ids.contains r.id)) tid
      = build_rule_mapping db tid :=
  build_map_foldl_filter ids tid htid db none

/-- Persisted rule A with full action detail. -/
def c5_ruleA : DbRule :=
  ⟨"A", "Rule A", "first rule", .mod (seqOf []), false,
    some ⟨"act-A", "Action A", "does A", .mod (seqOf [])⟩⟩

/-- Persisted rule C with full action detail. -/
def c5_ruleC : DbRule :=
  ⟨"C", "Rule C", "third rule", .mod (seqOf []), true,
    some ⟨"act-C", "Action C", "does C", .mod (seqOf [])⟩⟩

/-- C5: the reconciled installed-rules view (no status filter) maps each
live engine task id to an installed-rule entry carrying the joined
record's full rule and action detail when a persisted record with that id
exists, and to an orphaned entry carrying only the task id otherwise; in
particular engine ids A, B, C joined with records A, C yield A and C
installed and B orphaned. -/
theorem reconciliation_installed_and_orphaned :
    (∀ (ids : List String) (db : List DbRule),
      list_installed_rules ids db none
        = ids.map (fun tid =>
            match build_rule_mapping db tid with
            | some r => installed_view r
            | none => RuleView.orphaned tid))
    ∧ list_installed_rules ["A", "B", "C"] [c5_ruleA, c5_ruleC] none
        = [installed_view c5_ruleA, RuleView.orphaned "B", installed_view c5_ruleC] := by
  constructor
  · intro ids db
    by_cases hids : ids.isEmpty
    · rw [List.isEmpty_iff.mp hids]
      rfl
    · unfold list_installed_rules
      rw [if_neg hids]
      apply filterMap_eq_map_of
      intro tid htid
      rw [build_rule_mapping_filter db ids tid ((contains_iff_mem _ _).mpr htid)]
      cases build_rule_mapping db tid <;> rfl
  · rfl

lemma submit_rule_ok (st st1 : EngineState) (tid : String)
    (h : submit_rule st tid = .ok st1) :
    (installed_ids st).contains tid = false ∧ st1 = st ++ [(tid, false)] := by
  unfold submit_rule at h
  split at h
  · exact absurd h (by simp)
  · rename_i hcon
    refine ⟨by simpa using hcon, ?_⟩
    injection h with h
    exact h.symm

lemma install_single_rule_ok (execFn : ExecFn) (registry : List String)
    (r : DbRule) (st st' : EngineState)
    (h : install_single_rule execFn registry r st = .ok st') :
    (installed_ids st).contains r.id = false
    ∧ st' = (if r.is_suspended
        then engine_suspend (st ++ [(r.id, false)]) r.id
        else st ++ [(r.id, false)]) := by
  unfold install_single_rule at h
  split at h
  · exact absurd h (by simp)
  · split at h
    · exact absurd h (by simp)
    · split at h
      · exact absurd h (by simp)
      · split at h
        · exact absurd h (by simp)
        · split at h
          · exact absurd h (by simp)
          · rename_i st1 hsub
            obtain ⟨hfree, hst1⟩ := submit_rule_ok st st1 r.id hsub
            subst hst1
            injection h with h
            exact ⟨hfree, h.symm⟩
      · split at h
        · exact absurd h (by simp)
        · split at h
          · exact absurd h (by simp)
          · rename_i st1 hsub
            obtain ⟨hfree, hst1⟩ := submit_rule_ok st st1 r.id hsub
            subst hst1
            injection h with h
            exact ⟨hfree, h.symm⟩

lemma install_route_success (execFn : ExecFn) (registry : List String)
    (db : List DbRule) (rule_id : String) (r : DbRule) (st st2 : EngineState)
    (hfind : find_rule db rule_id = some r)
    (h : install_rule_route execFn registry db rule_id st = (st2, RpcOutcome.success)) :
    (installed_ids st).contains rule_id = false
    ∧ st2 = (if r.is_suspended
        then engine_suspend (st ++ [(rule_id, false)]) rule_id
        else st ++ [(rule_id, false)]) := by
  unfold install_rule_route at h
  rw [hfind] at h
  dsimp only [] at h
  split at h
  · exact absurd h (by simp)
  · split at h
    · exact absurd h (by simp)
    · split at h
      · exact absurd h (by simp)
      · split at h
        · exact absurd h (by simp)
        · split at h
          · exact absurd h (by simp)
          · rename_i st1 hsub
            obtain ⟨hfree, hst1⟩ := submit_rule_ok st st1 rule_id hsub
            subst hst1
            split at h <;> rename_i hsusp
            · injection h with h1 h2
              exact ⟨hfree, by rw [if_pos hsusp, ← h1]⟩
            · injection h with h1 h2
              exact ⟨hfree, by rw [if_neg hsusp, ← h1]⟩
      · split at h
        · exact absurd h (by simp)
        · split at h
          · exact absurd h (by simp)
          · rename_i st1 hsub
            obtain ⟨hfree, hst1⟩ := submit_rule_ok st st1 rule_id hsub
            subst hst1
            split at h <;> rename_i hsusp
            · injection h with h1 h2
              exact ⟨hfree, by rw [if_pos hsusp, ← h1]⟩
            · injection h with h1 h2
              exact ⟨hfree, by rw [if_neg hsusp, ← h1]⟩

lemma installed_ids_engine_suspend (st : EngineState) (tid : String) :
    installed_ids (engine_suspend st tid) = installed_ids st := by
  simp only [installed_ids, engine_suspend, List.map_map]
  refine List.map_congr_left (fun p _ => ?_)
  by_cases h : p.1 = tid <;> simp [h]

lemma contains_false_not_mem (l : List String) (a : String)
    (h : l.contains a = false) : a ∉ l := by
  intro hmem
  rw [(contains_iff_mem l a).mpr hmem] at h
  exact Bool.true_eq_false.mp h

lemma lookup_after_submit (tid : String) (b : Bool) :
    ∀ (st : EngineState), tid ∉ installed_ids st →
    task_suspended (st ++ [(tid, b)]) tid = some b
    ∧ task_suspended (engine_suspend (st ++ [(tid, b)]) tid) tid = some true := by
  intro st
  induction st with
  | nil =>
    intro _
    have hsusp : engine_suspend ([] ++ [(tid, b)]) tid = [(tid, true)] := by
      simp [engine_suspend]
    rw [hsusp]
    constructor <;> simp [task_suspended, List.lookup]
  | cons p rest ih =>
    intro hfree
    obtain ⟨k, v⟩ := p
    have hne : k ≠ tid := fun he => hfree (by simp [installed_ids, he])
    have hrest : tid ∉ installed_ids rest := fun hm =>
      hfree (by simp [installed_ids] at hm ⊢; exact Or.inr hm)
    have hbeq : (tid == k) = false := beq_eq_false_iff_ne.mpr (Ne.symm hne)
    obtain ⟨ih1, ih2⟩ := ih hrest
    simp only [task_suspended] at ih1 ih2 ⊢
    have hmap : engine_suspend (((k, v) :: rest) ++ [(tid, b)]) tid
        = (k, v) :: engine_suspend (rest ++ [(tid, b)]) tid := by
      simp [engine_suspend, hne]
    constructor
    · rw [List.cons_append]
      simp only [List.lookup, hbeq]
      exact ih1
    · rw [hmap]
      simp only [List.lookup, hbeq]
      exact ih2

/-- C9: when a persisted rule is installed — via the install route or via
startup auto-install's single-rule step — it is first submitted to the
engine under its rule id and then marked suspended there exactly when its
persisted `is_suspended` flag is set, so after a successful install the
live task's suspension state matches the persisted flag. -/
theorem install_sets_engine_suspension (execFn : ExecFn) (registry : List String) :
    (∀ (r : DbRule) (st st' : EngineState),
      install_single_rule execFn registry r st = .ok st' →
      task_suspended st' r.id = some r.is_suspended)
    ∧ (∀ (db : List DbRule) (rule_id : String) (r : DbRule) (st st2 : EngineState),
      find_rule db rule_id = some r →
      install_rule_route execFn registry db rule_id st = (st2, RpcOutcome.success) →
      task_suspended st2 rule_id = some r.is_suspended) := by
  constructor
  · intro r st st' h
    obtain ⟨hfree, hst⟩ := install_single_rule_ok execFn registry r st st' h
    obtain ⟨h1, h2⟩ := lookup_after_submit r.id false st
      (contains_false_not_mem _ _ hfree)
    subst hst
    cases hsusp : r.is_suspended <;> simp [hsusp, h1, h2]
  · intro db rule_id r st st2 hfind h
    obtain ⟨hfree, hst⟩ := install_route_success execFn registry db rule_id r st st2 hfind h
    obtain ⟨h1, h2⟩ := lookup_after_submit rule_id false st
      (contains_false_not_mem _ _ hfree)
    subst hst
    cases hsusp : r.is_suspended <;> simp [hsusp, h1, h2]

/-- Action record whose source defines a valid async `action` and then
deletes `__builtins__`: removing the key that `exec` injected is what
lets a source survive the only-functions check, so this source actually
compiles under the faithful evaluator. -/
def wit_action : DbAction :=
  ⟨"a1", "turn on lights", "demo action",
    .mod (seqOf [Stmt.asyncFuncDef "action" [] none (seqOf []),
                 Stmt.delStmt "__builtins__"])⟩

/-- Trigger source declaring the exact `AbstractCondition` annotation and
deleting `__builtins__` so that it passes the only-functions check. -/
def wit_trigger_code : PyCode :=
  .mod (seqOf [Stmt.funcDef "trigger" [] (some "AbstractCondition") (seqOf []),
               Stmt.delStmt "__builtins__"])

/-- A persisted rule that is marked suspended. -/
def c9_rule : DbRule :=
  ⟨"r9", "suspended rule", "demo", wit_trigger_code, true, some wit_action⟩

theorem install_sets_engine_suspension_witness :
    install_single_rule simple_exec [] c9_rule [] = .ok [("r9", true)]
    ∧ task_suspended [("r9", true)] "r9" = some c9_rule.is_suspended
    ∧ find_rule [c9_rule] "r9" = some c9_rule
    ∧ install_rule_route simple_exec [] [c9_rule] "r9" []
        = ([("r9", true)], RpcOutcome.success)
    ∧ task_suspended [("r9", true)] "r9" = some c9_rule.is_suspended :=
  ⟨rfl,
   (install_sets_engine_suspension simple_exec []).1 c9_rule [] [("r9", true)] rfl,
   rfl, rfl,
   (install_sets_engine_suspension simple_exec []).2 [c9_rule] "r9" c9_rule []
     [("r9", true)] rfl rfl⟩

/-- Persisted action record with an ordinary valid source (no
`__builtins__` deletion), as the spec's auto-install scenario intends. -/
def c6_plain_action : DbAction :=
  ⟨"a1", "turn on lights", "demo action", .mod plain_action_module⟩

/-- First persisted rule: ordinary valid sources. -/
def c6_r1 : DbRule :=
  ⟨"r1", "one", "demo", .mod plain_trigger_module, false, some c6_plain_action⟩

/-- Second persisted rule, with unparseable action source. -/
def c6_r2 : DbRule :=
  ⟨"r2", "two", "demo", .mod plain_trigger_module, false,
    some ⟨"a2", "broken", "demo", .bad⟩⟩

/-- Third persisted rule: ordinary valid sources. -/
def c6_r3 : DbRule :=
  ⟨"r3", "three", "demo", .mod plain_trigger_module, false, some c6_plain_action⟩

/-- C6: evaluation of the code at the failing input.  Auto-install's
per-rule try/except does keep one rule's failure from aborting the rest
(the batch is a total fold and never raises), but with three persisted
rules of which the second has invalid source, the program does not end up
with the first and third installed: their ordinary sources also fail
compilation, because the non-callable `__builtins__` key injected by
`exec` trips the only-functions check, so auto-install installs none of
the three rules (0/3, not the claimed 2/3). -/
theorem auto_install_installs_nothing :
    install_single_rule simple_exec [] c6_r1 []
      = .error (.nonFunctionTopLevel "__builtins__")
    ∧ install_single_rule simple_exec [] c6_r2 [] = .error .invalidSyntax
    ∧ install_single_rule simple_exec [] c6_r3 []
      = .error (.nonFunctionTopLevel "__builtins__")
    ∧ auto_install_database_rules simple_exec [] [c6_r1, c6_r2, c6_r3] []
      = ([], 0) := by
  refine ⟨rfl, rfl, rfl, rfl⟩
